import Mathlib

/-
Verification development for the 4REF reference-image viewer
(src/4ref.py and src/Ref.py).

The core logic under study is the two-stage scale-to-fit pipeline in
update_image, the URL/clipboard/file-drop acquisition paths, the opacity
handler and the reset action.  The GUI toolkit collaborator (Qt) is
embedded through the integer-dimension semantics of QPixmap.scaled with
Qt.KeepAspectRatio, taken from QSize::scaled and QPixmap::scaled:

  QSize::scaled(target, KeepAspectRatio):
    if (wd == 0 || ht == 0) return target;
    rw = target.h * wd / ht;                      -- integer division
    if (rw <= target.w) return (rw, target.h);
    else return (target.w, target.w * ht / wd);

  QPixmap::scaled(s, ...):
    if (isNull()) return null pixmap;
    if (s.isEmpty()) return null pixmap;
    newSize = size().scaled(s, mode);
    newSize.rwidth()  = max(newSize.width(), 1);
    newSize.rheight() = max(newSize.height(), 1);

Only pixel dimensions matter for the properties under study, so a bitmap
is embedded as its (width, height) pair; the null pixmap is 0x0.
-/

/-- Pixel dimensions of a decoded QPixmap.  The null pixmap
(default-constructed, or produced by a failed load) is 0x0. -/
structure Bitmap where
  width : Nat
  height : Nat
deriving DecidableEq

/-- The null pixmap: QPixmap() before any successful load. -/
def nullPixmap : Bitmap := ⟨0, 0⟩

/-- QPixmap.isNull: a pixmap with no data, which Qt reports as 0x0. -/
def Bitmap.isNull (bm : Bitmap) : Bool := bm.width == 0 && bm.height == 0

/-- QSize::scaled with Qt.KeepAspectRatio: dimensions of the largest box
with (approximately) the source ratio fitting in (tw, th), computed with
truncating integer division exactly as in Qt. -/
def qsizeScaledKeep (w h tw th : Nat) : Nat × Nat :=
  if w = 0 ∨ h = 0 then (tw, th)
  else
    let rw := th * w / h
    if rw ≤ tw then (rw, th) else (tw, tw * h / w)

/-- Dimension semantics of QPixmap::scaled(QSize(tw, th), Qt.KeepAspectRatio,
Qt.SmoothTransformation): null in, null out; empty target gives null;
otherwise QSize::scaled with each component clamped up to 1. -/
def pixmapScaled (bm : Bitmap) (tw th : Nat) : Bitmap :=
  if bm.isNull then nullPixmap
  else if tw = 0 ∨ th = 0 then nullPixmap
  else
    let p := qsizeScaledKeep bm.width bm.height tw th
    ⟨max p.1 1, max p.2 1⟩

/-- The aspect ratio cw/ch agrees with w/h up to the one-pixel rounding of
Qt's truncating division: the cross products differ by less than max w h. -/
abbrev ratioClose (cw ch w h : Nat) : Prop :=
  cw * h < ch * w + max w h ∧ ch * w < cw * h + max w h

/-- Content of the QLabel image_label: QLabel.setText replaces any pixmap
and QLabel.setPixmap replaces any text, so the label holds one or the
other. -/
inductive LabelContent where
  | text (s : String)
  | pixmap (bm : Bitmap)
deriving DecidableEq

/-- Raw bytes from the network, handed to QPixmap.loadFromData. -/
abbrev RawBytes := List Nat

/-- State of the TextBasedImageViewer window in src/4ref.py: the stored
original and scaled (capped) pixmaps, the image label content, the URL
input field, the always-on-top flag, window opacity, the opacity slider
value and label, and the window footprint. -/
structure AppState where
  original_pixmap : Option Bitmap
  scaled_pixmap : Option Bitmap
  image_label : LabelContent
  url_input : String
  is_on_top : Bool
  opacity : Rat
  opacity_slider : Nat
  opacity_label : String
  window_width : Nat
  window_height : Nat
deriving DecidableEq

/-- State built by TextBasedImageViewer.__init__ in src/4ref.py (before the
clipboard auto-fetch runs): no pixmaps, placeholder label text, geometry
480x360, slider at 100, opacity 1.0, not on top. -/
def initState : AppState :=
  { original_pixmap := none
    scaled_pixmap := none
    image_label := LabelContent.text "Drag and Drop an Image Here"
    url_input := ""
    is_on_top := false
    opacity := 1
    opacity_slider := 100
    opacity_label := "Window Opacity: 100%"
    window_width := 480
    window_height := 360 }

/-- Cap stage of update_image (src/4ref.py lines 216-224): scale the
original down into the 800x800 box when it exceeds it, else keep it. -/
def capStage (orig : Bitmap) : Bitmap :=
  if 800 < orig.width ∨ 800 < orig.height then pixmapScaled orig 800 800
  else orig

/-- Fit stage of update_image (src/4ref.py lines 226-233): scale the capped
pixmap into the label area when both its dimensions are positive, else use
the capped pixmap directly. -/
def fitStage (scaled : Bitmap) (lw lh : Nat) : Bitmap :=
  if 0 < lw ∧ 0 < lh then pixmapScaled scaled lw lh
  else scaled

/-- update_image (src/4ref.py lines 210-233): no-op without an original;
otherwise store the capped pixmap in scaled_pixmap and set the label to
the fit result for the current label size (lw, lh). -/
def update_image (lw lh : Nat) (s : AppState) : AppState :=
  match s.original_pixmap with
  | none => s
  | some orig =>
      let scaled := capStage orig
      { s with
          scaled_pixmap := some scaled
          image_label := LabelContent.pixmap (fitStage scaled lw lh) }

/-- resizeEvent (src/4ref.py lines 235-238): rerun update_image with the
current label size. -/
def resizeEvent (lw lh : Nat) (s : AppState) : AppState :=
  update_image lw lh s

/-- load_image_from_url (src/4ref.py lines 192-208).  net models
requests.get followed by raise_for_status on the text-field URL: ok bytes,
or the exception description.  decode models QPixmap.loadFromData, which
returns False on undecodable bytes and leaves the pixmap null (it raises
no exception), so the try/except only catches the fetch stage. -/
def load_image_from_url (net : String → Except String RawBytes)
    (decode : RawBytes → Option Bitmap) (lw lh : Nat) (s : AppState) :
    AppState :=
  match net s.url_input with
  | Except.error e =>
      { s with image_label := LabelContent.text ("Error loading image: " ++ e) }
  | Except.ok bytes =>
      let pixmap := (decode bytes).getD nullPixmap
      update_image lw lh { s with original_pixmap := some pixmap }

/-- change_opacity (src/4ref.py lines 240-245): read the slider value, set
the window opacity to value/100.0 and the label text. -/
def change_opacity (s : AppState) : AppState :=
  let value := s.opacity_slider
  { s with
      opacity := (value : Rat) / 100
      opacity_label := "Window Opacity: " ++ toString value ++ "%" }

/-- QSlider.setValue on the opacity slider: the slider clamps to its
[10, 100] range and the valueChanged signal runs change_opacity. -/
def opacity_slider_setValue (v : Nat) (s : AppState) : AppState :=
  change_opacity { s with opacity_slider := min 100 (max 10 v) }

/-- reset_app (src/4ref.py lines 266-279): clear the URL field and label
text, drop both pixmaps, clear always-on-top, resize to 480x360, opacity
back to 1.0, slider back to 100 (triggering change_opacity), opacity label
text restored. -/
def reset_app (s : AppState) : AppState :=
  let s1 := { s with
      url_input := ""
      image_label := LabelContent.text "Drag and Drop an Image Here"
      original_pixmap := none
      scaled_pixmap := none
      is_on_top := false
      window_width := 480
      window_height := 360
      opacity := 1 }
  let s2 := opacity_slider_setValue 100 s1
  { s2 with opacity_label := "Window Opacity: 100%" }

/-- Python str.lower, embedded character-wise over the string's
characters. -/
def pyLower (s : String) : String := ⟨s.data.map Char.toLower⟩

/-- Python str.endswith: the argument is a suffix of the string. -/
def pyEndsWith (s post : String) : Bool := post.data.isSuffixOf s.data

/-- The image-extension list of auto_fetch_url_from_clipboard
(src/4ref.py line 262). -/
def image_exts : List String := [".png", ".jpg", ".jpeg", ".gif", ".svg"]

/-- auto_fetch_url_from_clipboard (src/4ref.py lines 258-264): when the
lowercased clipboard text ends with a known image extension, put it in the
URL field and run load_image_from_url; otherwise do nothing. -/
def auto_fetch_url_from_clipboard (net : String → Except String RawBytes)
    (decode : RawBytes → Option Bitmap) (lw lh : Nat)
    (clipboard_text : String) (s : AppState) : AppState :=
  if image_exts.any (fun ext => pyEndsWith (pyLower clipboard_text) ext) then
    load_image_from_url net decode lw lh { s with url_input := clipboard_text }
  else s

/-- dragEnterEvent (src/4ref.py lines 281-286): accept a drag exactly when
its mime data carries URLs. -/
def dragEnterEvent (hasUrls : Bool) : Bool := hasUrls

/-- dropEvent (src/4ref.py lines 288-297): take the first dropped URL's
local file path, build QPixmap(file_path) (readFile models the decoder:
none means the file is missing or unreadable, in which case the QPixmap
constructor yields the null pixmap), store it as the original and run
update_image.  An empty payload would make urls()[0] raise (none); the
dragEnterEvent gate keeps that unreachable. -/
def dropEvent (readFile : String → Option Bitmap) (lw lh : Nat)
    (paths : List String) (s : AppState) : Option AppState :=
  match paths with
  | [] => none
  | file_path :: _ =>
      let pixmap := (readFile file_path).getD nullPixmap
      some (update_image lw lh { s with original_pixmap := some pixmap })

/-- Projection of the label content onto its pixmap, when it shows one. -/
def labelPixmap : LabelContent → Option Bitmap
  | LabelContent.text _ => none
  | LabelContent.pixmap bm => some bm

/-- Bound required of a displayed fit pixmap: within the display area when
the area is laid out (both dimensions positive), within the 800x800 cap
when the fit stage was skipped. -/
def fitsBoundB (lw lh : Nat) (bm : Bitmap) : Bool :=
  if 0 < lw ∧ 0 < lh then decide (bm.width ≤ lw ∧ bm.height ≤ lh)
  else decide (bm.width ≤ 800 ∧ bm.height ≤ 800)

/-- Display-state invariant relative to the label area (lw, lh): the label
shows a pixmap exactly when an original is stored, and any shown pixmap
satisfies fitsBoundB. -/
abbrev InvDisplay (lw lh : Nat) (s : AppState) : Prop :=
  (labelPixmap s.image_label).isSome = s.original_pixmap.isSome ∧
  (labelPixmap s.image_label).all (fitsBoundB lw lh) = true

/-- A state with a 100x50 image already loaded at a 400x300 label, used as
the concrete prior state of the failure scenarios. -/
def sPrior : AppState :=
  { initState with
      original_pixmap := some ⟨100, 50⟩
      scaled_pixmap := some ⟨100, 50⟩
      image_label := LabelContent.pixmap ⟨100, 50⟩ }

namespace RefVariant

/-- The two-stage scale computation of update_image in src/4ref.py lines
216-233, as a pure function from the original pixmap and label size to the
(capped, fit) pair. -/
def scalePipelineA (orig : Bitmap) (lw lh : Nat) : Bitmap × Bitmap :=
  let scaled :=
    if 800 < orig.width ∨ 800 < orig.height then pixmapScaled orig 800 800
    else orig
  let fit :=
    if 0 < lw ∧ 0 < lh then pixmapScaled scaled lw lh
    else scaled
  (scaled, fit)

/-- The two-stage scale computation of update_image in src/Ref.py lines
104-121, transcribed independently from that file. -/
def scalePipelineB (orig : Bitmap) (lw lh : Nat) : Bitmap × Bitmap :=
  let scaled :=
    if 800 < orig.width ∨ 800 < orig.height then pixmapScaled orig 800 800
    else orig
  let fit :=
    if 0 < lw ∧ 0 < lh then pixmapScaled scaled lw lh
    else scaled
  (scaled, fit)

end RefVariant

example : capStage ⟨1600, 1200⟩ = ⟨800, 600⟩ := by decide
example : fitStage ⟨800, 600⟩ 400 300 = ⟨400, 300⟩ := by decide
example : capStage ⟨100, 50⟩ = ⟨100, 50⟩ := by decide
example : fitStage ⟨100, 50⟩ 500 500 = ⟨500, 250⟩ := by decide
example : fitStage ⟨100, 50⟩ 2000 2000 = ⟨2000, 1000⟩ := by decide
example : capStage ⟨1000, 1⟩ = ⟨800, 1⟩ := by decide

lemma pixmapScaled_eq (w h tw th : Nat) (hw : 0 < w) (hh : 0 < h)
    (htw : 0 < tw) (hth : 0 < th) :
    pixmapScaled ⟨w, h⟩ tw th =
      if th * w / h ≤ tw then ⟨max (th * w / h) 1, max th 1⟩
      else ⟨max tw 1, max (tw * h / w) 1⟩ := by
  by_cases hc : th * w / h ≤ tw
  · simp [pixmapScaled, qsizeScaledKeep, Bitmap.isNull, hw.ne', hh.ne',
      htw.ne', hth.ne', hc]
  · simp [pixmapScaled, qsizeScaledKeep, Bitmap.isNull, hw.ne', hh.ne',
      htw.ne', hth.ne', hc]

lemma pixmapScaled_le (bm : Bitmap) (tw th : Nat) (htw : 0 < tw)
    (hth : 0 < th) :
    (pixmapScaled bm tw th).width ≤ tw ∧ (pixmapScaled bm tw th).height ≤ th := by
  obtain ⟨w, h⟩ := bm
  by_cases hw0 : w = 0
  · by_cases hh0 : h = 0
    · subst hw0; subst hh0
      simp [pixmapScaled, Bitmap.isNull, nullPixmap]
    · subst hw0
      have he : pixmapScaled ⟨0, h⟩ tw th = ⟨max tw 1, max th 1⟩ := by
        simp [pixmapScaled, Bitmap.isNull, qsizeScaledKeep, hh0, htw.ne', hth.ne']
      rw [he]
      exact ⟨Nat.max_le.mpr ⟨le_refl tw, htw⟩, Nat.max_le.mpr ⟨le_refl th, hth⟩⟩
  · by_cases hh0 : h = 0
    · subst hh0
      have he : pixmapScaled ⟨w, 0⟩ tw th = ⟨max tw 1, max th 1⟩ := by
        simp [pixmapScaled, Bitmap.isNull, qsizeScaledKeep, hw0, htw.ne', hth.ne']
      rw [he]
      exact ⟨Nat.max_le.mpr ⟨le_refl tw, htw⟩, Nat.max_le.mpr ⟨le_refl th, hth⟩⟩
    · have hw : 0 < w := Nat.pos_of_ne_zero hw0
      have hh : 0 < h := Nat.pos_of_ne_zero hh0
      rw [pixmapScaled_eq w h tw th hw hh htw hth]
      by_cases hc : th * w / h ≤ tw
      · rw [if_pos hc]
        exact ⟨Nat.max_le.mpr ⟨hc, htw⟩, Nat.max_le.mpr ⟨le_refl th, hth⟩⟩
      · rw [if_neg hc]
        push_neg at hc
        refine ⟨Nat.max_le.mpr ⟨le_refl tw, htw⟩, ?_⟩
        have h1 : tw * h / w * w ≤ tw * h := Nat.div_mul_le_self _ _
        have h3 : (tw + 1) * h ≤ th * w := (Nat.le_div_iff_mul_le hh).mp hc
        have h4 : tw * h < (tw + 1) * h := by
          calc tw * h < tw * h + h := Nat.lt_add_of_pos_right hh
            _ = (tw + 1) * h := by rw [Nat.succ_mul]
        have h5 : tw * h / w * w < th * w :=
          lt_of_le_of_lt h1 (lt_of_lt_of_le h4 h3)
        have h6 : tw * h / w < th := lt_of_mul_lt_mul_right h5 (Nat.zero_le w)
        exact Nat.max_le.mpr ⟨Nat.le_of_lt h6, hth⟩

lemma ratio_aux (q t w h : Nat) (hw : 0 < w) (hh : 0 < h) (ht : 0 < t)
    (h1 : q * h ≤ t * w) (h2 : t * w < q * h + h) :
    ratioClose (max q 1) t w h := by
  rcases Nat.eq_zero_or_pos q with hq | hq
  · subst hq
    have htw0 : t * w < h := by simpa using h2
    have hwle : w ≤ t * w := Nat.le_mul_of_pos_left w ht
    have hwh : w < h := lt_of_le_of_lt hwle htw0
    have hmax : max w h = h := Nat.max_eq_right (Nat.le_of_lt hwh)
    constructor
    · have h0 : 0 < t * w := Nat.mul_pos ht hw
      have hlt1 : h < t * w + h := lt_add_of_pos_left h h0
      simpa [hmax] using hlt1
    · have hlt : t * w < h + h := lt_of_lt_of_le htw0 (Nat.le_add_right h h)
      simpa [hmax] using hlt
  · rw [Nat.max_eq_left hq]
    constructor
    · have hpos : 0 < max w h := lt_of_lt_of_le hw (Nat.le_max_left w h)
      exact lt_of_le_of_lt h1 (Nat.lt_add_of_pos_right hpos)
    · exact lt_of_lt_of_le h2 (Nat.add_le_add_left (Nat.le_max_right w h) _)

lemma ratioClose_swap {cw ch w h : Nat} (hr : ratioClose cw ch w h) :
    ratioClose ch cw h w := by
  obtain ⟨a, b⟩ := hr
  constructor
  · rw [Nat.max_comm h w]; exact b
  · rw [Nat.max_comm h w]; exact a

lemma pixmapScaled_ratio (bm : Bitmap) (tw th : Nat) (hw : 0 < bm.width)
    (hh : 0 < bm.height) (htw : 0 < tw) (hth : 0 < th) :
    ratioClose (pixmapScaled bm tw th).width (pixmapScaled bm tw th).height
      bm.width bm.height := by
  obtain ⟨w, h⟩ := bm
  dsimp only at hw hh ⊢
  rw [pixmapScaled_eq w h tw th hw hh htw hth]
  by_cases hc : th * w / h ≤ tw
  · rw [if_pos hc]
    have h1 : th * w / h * h ≤ th * w := Nat.div_mul_le_self _ _
    have h2 : th * w < th * w / h * h + h := by
      have hd := Nat.div_add_mod (th * w) h
      have hm : (th * w) % h < h := Nat.mod_lt _ hh
      calc th * w = h * (th * w / h) + (th * w) % h := hd.symm
        _ < h * (th * w / h) + h := Nat.add_lt_add_left hm _
        _ = th * w / h * h + h := by rw [Nat.mul_comm]
    have hr := ratio_aux (th * w / h) th w h hw hh hth h1 h2
    show ratioClose (max (th * w / h) 1) (max th 1) w h
    rw [Nat.max_eq_left hth]
    exact hr
  · rw [if_neg hc]
    have h1 : tw * h / w * w ≤ tw * h := Nat.div_mul_le_self _ _
    have h2 : tw * h < tw * h / w * w + w := by
      have hd := Nat.div_add_mod (tw * h) w
      have hm : (tw * h) % w < w := Nat.mod_lt _ hw
      calc tw * h = w * (tw * h / w) + (tw * h) % w := hd.symm
        _ < w * (tw * h / w) + w := Nat.add_lt_add_left hm _
        _ = tw * h / w * w + w := by rw [Nat.mul_comm]
    have hr := ratio_aux (tw * h / w) tw h w hh hw htw h1 h2
    have hsw := ratioClose_swap hr
    show ratioClose (max tw 1) (max (tw * h / w) 1) w h
    rw [Nat.max_eq_left htw]
    exact hsw

lemma capStage_le_800 (bm : Bitmap) :
    (capStage bm).width ≤ 800 ∧ (capStage bm).height ≤ 800 := by
  by_cases hc : 800 < bm.width ∨ 800 < bm.height
  · unfold capStage
    rw [if_pos hc]
    exact pixmapScaled_le bm 800 800 (by norm_num) (by norm_num)
  · unfold capStage
    rw [if_neg hc]
    push_neg at hc
    exact hc

lemma capStage_le_orig (bm : Bitmap) (hw : 0 < bm.width) (hh : 0 < bm.height) :
    (capStage bm).width ≤ bm.width ∧ (capStage bm).height ≤ bm.height := by
  obtain ⟨w, h⟩ := bm
  dsimp only at hw hh ⊢
  by_cases hc : 800 < w ∨ 800 < h
  · unfold capStage
    dsimp only
    rw [if_pos hc]
    rw [pixmapScaled_eq w h 800 800 hw hh (by norm_num) (by norm_num)]
    by_cases hcc : 800 * w / h ≤ 800
    · rw [if_pos hcc]
      have hh800 : 800 < h := by
        by_contra hle
        push_neg at hle
        have hw800 : 800 < w := by
          rcases hc with h1 | h1
          · exact h1
          · omega
        have e1 : 800 * w / 800 ≤ 800 * w / h := Nat.div_le_div_left hle hh
        have e2 : 800 * w / 800 = w := Nat.mul_div_cancel_left w (by norm_num)
        have e3 : w ≤ 800 * w / h := by rw [e2] at e1; exact e1
        have e4 : w ≤ 800 := le_trans e3 hcc
        omega
      constructor
      · have hq : 800 * w / h ≤ w := by
          have hm : 800 * w ≤ h * w := Nat.mul_le_mul_right w (by omega)
          calc 800 * w / h ≤ h * w / h := Nat.div_le_div_right hm
            _ = w := Nat.mul_div_cancel_left w hh
        exact Nat.max_le.mpr ⟨hq, hw⟩
      · have hm8 : max (800 : Nat) 1 = 800 := by norm_num
        dsimp only
        rw [hm8]
        exact Nat.le_of_lt hh800
    · rw [if_neg hcc]
      push_neg at hcc
      have hw800 : 800 < w := by
        by_contra hle
        push_neg at hle
        have hh800 : 800 < h := by
          rcases hc with h1 | h1
          · omega
          · exact h1
        have e1 : 800 * w / h ≤ 800 * 800 / h :=
          Nat.div_le_div_right (Nat.mul_le_mul_left 800 hle)
        have e2 : 800 * 800 / h ≤ 800 * 800 / 801 :=
          Nat.div_le_div_left (by omega) (by omega)
        have e3 : (800 * 800 : Nat) / 801 = 799 := by norm_num
        have e4 : 800 * w / h ≤ 799 := by
          rw [e3] at e2
          exact le_trans e1 e2
        omega
      constructor
      · have hm8 : max (800 : Nat) 1 = 800 := by norm_num
        dsimp only
        rw [hm8]
        exact Nat.le_of_lt hw800
      · have hq : 800 * h / w ≤ h := by
          have hm : 800 * h ≤ w * h := Nat.mul_le_mul_right h (Nat.le_of_lt hw800)
          calc 800 * h / w ≤ w * h / w := Nat.div_le_div_right hm
            _ = h := Nat.mul_div_cancel_left h hw
        exact Nat.max_le.mpr ⟨hq, hh⟩
  · unfold capStage
    dsimp only
    rw [if_neg hc]
    exact ⟨le_refl w, le_refl h⟩

lemma capStage_ratio (bm : Bitmap) (hw : 0 < bm.width) (hh : 0 < bm.height) :
    ratioClose (capStage bm).width (capStage bm).height bm.width bm.height := by
  by_cases hc : 800 < bm.width ∨ 800 < bm.height
  · unfold capStage
    rw [if_pos hc]
    exact pixmapScaled_ratio bm 800 800 hw hh (by norm_num) (by norm_num)
  · unfold capStage
    rw [if_neg hc]
    have hmax : 0 < max bm.width bm.height :=
      lt_of_lt_of_le hw (Nat.le_max_left _ _)
    have e : bm.width * bm.height = bm.height * bm.width := Nat.mul_comm _ _
    constructor
    · rw [e]
      exact lt_add_of_pos_right _ hmax
    · rw [← e]
      exact lt_add_of_pos_right _ hmax

/-- C1: cap stage of the scale-to-fit computation: a bitmap within the
800x800 cap passes through the cap stage unchanged; a bitmap exceeding the
cap comes out with both dimensions at most 800, with the original aspect
ratio preserved up to Qt's integer rounding, and never scaled up. -/
theorem cap_stage_spec (bm : Bitmap) (hw : 0 < bm.width) (hh : 0 < bm.height) :
    (bm.width ≤ 800 ∧ bm.height ≤ 800 → capStage bm = bm) ∧
    (800 < bm.width ∨ 800 < bm.height →
      (capStage bm).width ≤ 800 ∧ (capStage bm).height ≤ 800 ∧
      (capStage bm).width ≤ bm.width ∧ (capStage bm).height ≤ bm.height ∧
      ratioClose (capStage bm).width (capStage bm).height bm.width bm.height) := by
  constructor
  · intro hsmall
    unfold capStage
    rw [if_neg (by omega)]
  · intro hbig
    obtain ⟨b1, b2⟩ := capStage_le_800 bm
    obtain ⟨c1, c2⟩ := capStage_le_orig bm hw hh
    exact ⟨b1, b2, c1, c2, capStage_ratio bm hw hh⟩

/-- Witness for cap_stage_spec at the 1600x1200 source of the spec's first
scenario (capped to 800x600). -/
theorem cap_stage_spec_witness :
    (0 : Nat) < 1600 ∧ (0 : Nat) < 1200 ∧ ((800 : Nat) < 1600 ∨ (800 : Nat) < 1200) ∧
    ((capStage ⟨1600, 1200⟩).width ≤ 800 ∧ (capStage ⟨1600, 1200⟩).height ≤ 800 ∧
      (capStage ⟨1600, 1200⟩).width ≤ 1600 ∧ (capStage ⟨1600, 1200⟩).height ≤ 1200 ∧
      ratioClose (capStage ⟨1600, 1200⟩).width (capStage ⟨1600, 1200⟩).height
        1600 1200) :=
  ⟨by decide, by decide, by decide,
    (cap_stage_spec ⟨1600, 1200⟩ (by decide) (by decide)).2 (Or.inl (by decide))⟩

/-- C2: fit stage of the scale-to-fit computation: with a laid-out display
area (both dimensions positive) the fit result lies within the area and
keeps the capped bitmap's aspect ratio up to rounding; with a zero
dimension the fit stage is skipped and the capped bitmap is returned. -/
theorem fit_stage_spec (bm : Bitmap) (hw : 0 < bm.width) (hh : 0 < bm.height)
    (lw lh : Nat) :
    (0 < lw ∧ 0 < lh →
      (fitStage bm lw lh).width ≤ lw ∧ (fitStage bm lw lh).height ≤ lh ∧
      ratioClose (fitStage bm lw lh).width (fitStage bm lw lh).height
        bm.width bm.height) ∧
    (lw = 0 ∨ lh = 0 → fitStage bm lw lh = bm) := by
  constructor
  · intro hpos
    unfold fitStage
    rw [if_pos hpos]
    obtain ⟨b1, b2⟩ := pixmapScaled_le bm lw lh hpos.1 hpos.2
    exact ⟨b1, b2, pixmapScaled_ratio bm lw lh hw hh hpos.1 hpos.2⟩
  · intro hzero
    unfold fitStage
    rw [if_neg (by omega)]

/-- Witness for fit_stage_spec at the spec's 800x600 capped bitmap fit into
a 400x300 area, plus the skipped stage at a zero-width area. -/
theorem fit_stage_spec_witness :
    ((fitStage ⟨800, 600⟩ 400 300).width ≤ 400 ∧
      (fitStage ⟨800, 600⟩ 400 300).height ≤ 300 ∧
      ratioClose (fitStage ⟨800, 600⟩ 400 300).width
        (fitStage ⟨800, 600⟩ 400 300).height 800 600) ∧
    fitStage ⟨800, 600⟩ 0 300 = ⟨800, 600⟩ :=
  ⟨(fit_stage_spec ⟨800, 600⟩ (by decide) (by decide) 400 300).1 ⟨by decide, by decide⟩,
    (fit_stage_spec ⟨800, 600⟩ (by decide) (by decide) 0 300).2 (Or.inl rfl)⟩

/-- C8: the two application variants implement the same core logic: the
scale computations transcribed from update_image in src/4ref.py and from
update_image in src/Ref.py produce identical capped and fit bitmaps on
every original bitmap and label size. -/
theorem variants_scale_equal (orig : Bitmap) (lw lh : Nat) :
    RefVariant.scalePipelineA orig lw lh = RefVariant.scalePipelineB orig lw lh :=
  rfl

/-- C9: the opacity-changed handler at a slider value v in [10, 100] stores
exactly v/100 as the window opacity and writes the percentage label. -/
theorem change_opacity_spec (s : AppState) (v : Nat) (h1 : 10 ≤ v) (h2 : v ≤ 100) :
    (change_opacity { s with opacity_slider := v }).opacity = (v : Rat) / 100 ∧
    (change_opacity { s with opacity_slider := v }).opacity_label =
      "Window Opacity: " ++ toString v ++ "%" :=
  ⟨rfl, rfl⟩

/-- Witness for change_opacity_spec at v = 25: opacity 0.25 and label
"Window Opacity: 25%", the spec's slider scenario. -/
theorem change_opacity_spec_witness :
    ((10 : Nat) ≤ 25 ∧ (25 : Nat) ≤ 100) ∧
    (change_opacity { initState with opacity_slider := 25 }).opacity = (0.25 : Rat) ∧
    (change_opacity { initState with opacity_slider := 25 }).opacity_label =
      "Window Opacity: 25%" := by
  refine ⟨⟨by norm_num, by norm_num⟩, ?_, ?_⟩
  · rw [(change_opacity_spec initState 25 (by norm_num) (by norm_num)).1]
    norm_num
  · rw [(change_opacity_spec initState 25 (by norm_num) (by norm_num)).2]
    rfl

/-- C10: a drop event with several file references behaves exactly like a
drop of the first reference alone: only the first path's pixmap becomes the
new original, the remaining paths are ignored. -/
theorem drop_first_only (readFile : String → Option Bitmap) (lw lh : Nat)
    (p : String) (rest : List String) (s : AppState) :
    dropEvent readFile lw lh (p :: rest) s = dropEvent readFile lw lh [p] s ∧
    dropEvent readFile lw lh (p :: rest) s =
      some (update_image lw lh
        { s with original_pixmap := some ((readFile p).getD nullPixmap) }) :=
  ⟨rfl, rfl⟩

/-- C7: reset_app returns any prior state exactly to the constructed
initial state: pixmaps cleared, placeholder text restored, always-on-top
off, opacity 1.0, slider and its label reset, default 480x360 footprint. -/
theorem reset_app_spec (s : AppState) : reset_app s = initState := by
  cases s
  simp [reset_app, opacity_slider_setValue, change_opacity, initState]

lemma image_exts_any_iff (t : String) :
    image_exts.any (fun ext => pyEndsWith (pyLower t) ext) = true ↔
      (pyEndsWith (pyLower t) ".png" = true ∨ pyEndsWith (pyLower t) ".jpg" = true ∨
       pyEndsWith (pyLower t) ".jpeg" = true ∨ pyEndsWith (pyLower t) ".gif" = true ∨
       pyEndsWith (pyLower t) ".svg" = true) := by
  simp [image_exts]

/-- C6: the startup clipboard gate dispatches a URL load exactly when the
lowercased clipboard text ends with one of .png, .jpg, .jpeg, .gif, .svg;
any other clipboard text leaves the state (and hence the UI) untouched,
with no error. -/
theorem clipboard_gate_spec (net : String → Except String RawBytes)
    (decode : RawBytes → Option Bitmap) (lw lh : Nat) (t : String)
    (s : AppState) :
    (¬(pyEndsWith (pyLower t) ".png" = true ∨ pyEndsWith (pyLower t) ".jpg" = true ∨
        pyEndsWith (pyLower t) ".jpeg" = true ∨ pyEndsWith (pyLower t) ".gif" = true ∨
        pyEndsWith (pyLower t) ".svg" = true) →
      auto_fetch_url_from_clipboard net decode lw lh t s = s) ∧
    ((pyEndsWith (pyLower t) ".png" = true ∨ pyEndsWith (pyLower t) ".jpg" = true ∨
        pyEndsWith (pyLower t) ".jpeg" = true ∨ pyEndsWith (pyLower t) ".gif" = true ∨
        pyEndsWith (pyLower t) ".svg" = true) →
      auto_fetch_url_from_clipboard net decode lw lh t s =
        load_image_from_url net decode lw lh { s with url_input := t }) := by
  constructor
  · intro hno
    have hcond : ¬(image_exts.any (fun ext => pyEndsWith (pyLower t) ext) = true) :=
      fun hc => hno ((image_exts_any_iff t).mp hc)
    unfold auto_fetch_url_from_clipboard
    rw [if_neg hcond]
  · intro hyes
    unfold auto_fetch_url_from_clipboard
    rw [if_pos ((image_exts_any_iff t).mpr hyes)]

/-- Witness for clipboard_gate_spec: plain text is ignored and an
uppercase .PNG URL is dispatched through load_image_from_url. -/
theorem clipboard_gate_spec_witness :
    auto_fetch_url_from_clipboard (fun _ => Except.error "e") (fun _ => none) 1 1
      "not an image" initState = initState ∧
    auto_fetch_url_from_clipboard (fun _ => Except.error "e") (fun _ => none) 1 1
      "HTTP://X/A.PNG" initState =
      load_image_from_url (fun _ => Except.error "e") (fun _ => none) 1 1
        { initState with url_input := "HTTP://X/A.PNG" } :=
  ⟨(clipboard_gate_spec (fun _ => Except.error "e") (fun _ => none) 1 1
      "not an image" initState).1 (by decide),
    (clipboard_gate_spec (fun _ => Except.error "e") (fun _ => none) 1 1
      "HTTP://X/A.PNG" initState).2 (by decide)⟩

/-- C4: evaluation of the failing input: a fetch that succeeds with bytes
that are not a valid image is not caught by the try/except, because
QPixmap.loadFromData signals failure by returning False instead of
raising.  The null pixmap replaces the stored 100x50 original, the fit is
recomputed from it and displayed, and no error text appears. -/
theorem load_decode_failure_not_caught :
    (load_image_from_url (fun _ => Except.ok [0]) (fun _ => none) 400 300
        sPrior).original_pixmap = some nullPixmap ∧
    (load_image_from_url (fun _ => Except.ok [0]) (fun _ => none) 400 300
        sPrior).image_label = LabelContent.pixmap nullPixmap ∧
    sPrior.original_pixmap = some ⟨100, 50⟩ := by
  exact ⟨rfl, rfl, rfl⟩

/-- C5 counterexample: dropping a file whose read fails stores the null
pixmap as the new original and displays it; no file-system error message
is surfaced and the state is not left unchanged. -/
theorem drop_io_failure_counterexample :
    (dropEvent (fun _ => none) 400 300 ["bad.png"] sPrior).map
        AppState.original_pixmap = some (some nullPixmap) ∧
    (dropEvent (fun _ => none) 400 300 ["bad.png"] sPrior).map
        AppState.image_label = some (LabelContent.pixmap nullPixmap) ∧
    sPrior.original_pixmap = some ⟨100, 50⟩ := by
  exact ⟨rfl, rfl, rfl⟩

/-- C5 amended: a drop carrying at least one file reference always loads
the first path: the pixmap read from it (the null pixmap when the read
fails) becomes the new original and the display is updated; a read failure
surfaces no error message and still replaces the original. -/
theorem drop_spec_amended (readFile : String → Option Bitmap) (lw lh : Nat)
    (p : String) (rest : List String) (s : AppState) :
    dropEvent readFile lw lh (p :: rest) s =
      some (update_image lw lh
        { s with original_pixmap := some ((readFile p).getD nullPixmap) }) ∧
    (readFile p = none →
      dropEvent readFile lw lh (p :: rest) s =
        some (update_image lw lh { s with original_pixmap := some nullPixmap })) := by
  constructor
  · rfl
  · intro hn
    simp [dropEvent, hn]

/-- Witness for drop_spec_amended with a failing read. -/
theorem drop_spec_amended_witness :
    dropEvent (fun _ => none) 400 300 ("bad.png" :: ["x.png"]) initState =
      some (update_image 400 300
        { initState with original_pixmap := some nullPixmap }) :=
  (drop_spec_amended (fun _ => none) 400 300 "bad.png" ["x.png"] initState).2 rfl

/-- C3 counterexample: the claimed invariant fails on the code in two ways.
A 100x50 original in a 2000x2000 display area is fit-scaled up to
2000x1000, whose width exceeds the fixed 800x800 cap; and a load failing
at the fetch stage over a previously loaded image replaces the displayed
fit with error text while the original stays defined, breaking the
defined-iff-defined half. -/
theorem display_invariant_counterexample :
    (update_image 2000 2000
        { initState with original_pixmap := some ⟨100, 50⟩ }).image_label =
      LabelContent.pixmap ⟨2000, 1000⟩ ∧
    ¬((2000 : Nat) ≤ 800) ∧
    (load_image_from_url (fun _ => Except.error "404") (fun _ => some ⟨1, 1⟩)
        400 300 sPrior).image_label =
      LabelContent.text "Error loading image: 404" ∧
    (load_image_from_url (fun _ => Except.error "404") (fun _ => some ⟨1, 1⟩)
        400 300 sPrior).original_pixmap = some ⟨100, 50⟩ := by
  exact ⟨by decide, by decide, rfl, rfl⟩

lemma update_image_some (lw lh : Nat) (s : AppState) (orig : Bitmap)
    (hor : s.original_pixmap = some orig) :
    update_image lw lh s =
      { s with
          scaled_pixmap := some (capStage orig)
          image_label := LabelContent.pixmap (fitStage (capStage orig) lw lh) } := by
  unfold update_image
  rw [hor]

lemma update_image_none (lw lh : Nat) (s : AppState)
    (hor : s.original_pixmap = none) :
    update_image lw lh s = s := by
  unfold update_image
  rw [hor]

lemma fitsBoundB_update (lw lh : Nat) (orig : Bitmap) :
    fitsBoundB lw lh (fitStage (capStage orig) lw lh) = true := by
  by_cases hpos : 0 < lw ∧ 0 < lh
  · unfold fitsBoundB fitStage
    rw [if_pos hpos, if_pos hpos, decide_eq_true_iff]
    exact pixmapScaled_le (capStage orig) lw lh hpos.1 hpos.2
  · unfold fitsBoundB fitStage
    rw [if_neg hpos, if_neg hpos, decide_eq_true_iff]
    exact capStage_le_800 orig

lemma update_image_inv (lw lh : Nat) (s : AppState) (orig : Bitmap)
    (hor : s.original_pixmap = some orig) :
    InvDisplay lw lh (update_image lw lh s) := by
  rw [update_image_some lw lh s orig hor]
  unfold InvDisplay
  constructor
  · simp [labelPixmap, hor]
  · simp [labelPixmap, Option.all, fitsBoundB_update]

/-- C3 amended: with the 800x800 cap demanded of the displayed fit only
when the fit stage is skipped (a positive display area bounds the fit by
the area instead, since the fit stage may scale up past the cap), the
display invariant is preserved by resize, established by reset and by any
load whose fetch succeeds (whatever the decode outcome); a load failing at
the fetch stage leaves the original and stored scaled pixmaps untouched
and replaces the label with the error text (so the defined-iff-defined
half holds after every operation except a failed fetch over a loaded
image). -/
theorem display_invariant_spec (lw lh lw2 lh2 : Nat) (s : AppState)
    (net : String → Except String RawBytes) (decode : RawBytes → Option Bitmap)
    (b : RawBytes) (e : String) (hInv : InvDisplay lw lh s) :
    InvDisplay lw2 lh2 (resizeEvent lw2 lh2 s) ∧
    InvDisplay lw2 lh2 (reset_app s) ∧
    (net s.url_input = Except.ok b →
      InvDisplay lw2 lh2 (load_image_from_url net decode lw2 lh2 s)) ∧
    (net s.url_input = Except.error e →
      (load_image_from_url net decode lw2 lh2 s).image_label =
        LabelContent.text ("Error loading image: " ++ e) ∧
      (load_image_from_url net decode lw2 lh2 s).original_pixmap =
        s.original_pixmap ∧
      (load_image_from_url net decode lw2 lh2 s).scaled_pixmap =
        s.scaled_pixmap) := by
  refine ⟨?_, ?_, ?_, ?_⟩
  · unfold resizeEvent
    cases hor : s.original_pixmap with
    | none =>
        rw [update_image_none lw2 lh2 s hor]
        obtain ⟨hiff, hall⟩ := hInv
        constructor
        · rw [hor] at hiff ⊢
          exact hiff
        · cases hlp : labelPixmap s.image_label with
          | none => rfl
          | some bm =>
              rw [hlp, hor] at hiff
              simp at hiff
    | some orig => exact update_image_inv lw2 lh2 s orig hor
  · have himg : (reset_app s).image_label =
        LabelContent.text "Drag and Drop an Image Here" := rfl
    have hor : (reset_app s).original_pixmap = none := rfl
    unfold InvDisplay
    rw [himg, hor]
    exact ⟨rfl, rfl⟩
  · intro hnet
    have hload : load_image_from_url net decode lw2 lh2 s =
        update_image lw2 lh2
          { s with original_pixmap := some ((decode b).getD nullPixmap) } := by
      unfold load_image_from_url
      rw [hnet]
    rw [hload]
    exact update_image_inv lw2 lh2 _ ((decode b).getD nullPixmap) rfl
  · intro hnet
    have hload : load_image_from_url net decode lw2 lh2 s =
        { s with
            image_label := LabelContent.text ("Error loading image: " ++ e) } := by
      unfold load_image_from_url
      rw [hnet]
    rw [hload]
    exact ⟨rfl, rfl, rfl⟩

/-- Witness for display_invariant_spec at the initial state, a 10x10 then
20x20 label area and a fetch returning bytes that decode to 3x4. -/
theorem display_invariant_spec_witness :
    InvDisplay 20 20 (resizeEvent 20 20 initState) ∧
    InvDisplay 20 20 (reset_app initState) ∧
    InvDisplay 20 20 (load_image_from_url (fun _ => Except.ok [0])
      (fun _ => some ⟨3, 4⟩) 20 20 initState) := by
  have h := display_invariant_spec 10 10 20 20 initState (fun _ => Except.ok [0])
    (fun _ => some ⟨3, 4⟩) [0] "e" (by decide)
  exact ⟨h.1, h.2.1, h.2.2.1 rfl⟩
